import Mathlib

set_option linter.unusedVariables false

/-!
Verification of the document indexing and retrieval pipeline of
`smart-doc-assistant` against its design specification.

The repository's own Python files (`04_unified_processor.py`,
`03_extract_confluence.py`) are thin wrappers around external library
components (a recursive text splitter, an embedding model, a FAISS vector
store).  The wrapper code under `src/` is embedded faithfully below
(`search_documents`, `add_pdf_documents`, `add_documents_to_vectorstore`, …);
the library components whose implementation is absent from the repository
(Chunker, VectorIndex, persistence) are modelled from the specification, as
marked in their doc comments.
-/

/-- Error taxonomy of the specification (§7). -/
inductive CoreError where
  | InvalidConfiguration
  | EmbeddingError
  | DimensionMismatch
  | CorruptIndex
  | IndexNotFound
  | InvalidQuery
deriving DecidableEq, Repr

instance {ε α : Type _} [DecidableEq ε] [DecidableEq α] : DecidableEq (Except ε α)
  | Except.error a, Except.error b =>
    if h : a = b then isTrue (congrArg Except.error h)
    else isFalse (fun hc => h (Except.error.inj hc))
  | Except.error _, Except.ok _ => isFalse (fun hc => Except.noConfusion hc)
  | Except.ok _, Except.error _ => isFalse (fun hc => Except.noConfusion hc)
  | Except.ok a, Except.ok b =>
    if h : a = b then isTrue (congrArg Except.ok h)
    else isFalse (fun hc => h (Except.ok.inj hc))

/-- A text is blank when it is empty or consists only of whitespace. -/
def isBlank (text : List Char) : Bool := text.all (fun c => c.isWhitespace)

/-- Python `str.strip()`: remove leading and trailing whitespace
(structurally recursive, unlike `String.trim`, so concrete instances reduce
in the kernel). -/
def strip (s : String) : String :=
  String.mk (((s.toList.dropWhile Char.isWhitespace).reverse.dropWhile
    Char.isWhitespace).reverse)

/-- Modelled from the spec: the Chunker implementation (the library text
splitter) is not under `src/`.  Spec §4.1: slide a window of length
`chunkSize` over the text, advancing by `step = chunkSize - overlap` each
step; the final chunk may be shorter and is neither padded nor dropped.
`fuel` bounds the recursion; `text.length` is always enough fuel because
each step consumes at least one character. -/
def splitAux : Nat → List Char → Nat → Nat → List (List Char)
  | 0, _, _, _ => []
  | fuel + 1, text, chunkSize, step =>
    if text.length = 0 then []
    else if text.length ≤ chunkSize then [text]
    else text.take chunkSize :: splitAux fuel (text.drop step) chunkSize step

/-- Modelled from the spec: Chunker contract (§4.1).  `chunkSize > 0` and
`0 ≤ overlap < chunkSize` are required, otherwise `InvalidConfiguration`;
an empty or whitespace-only text produces zero chunks. -/
def chunkText (text : List Char) (chunkSize overlap : Nat) :
    Except CoreError (List (List Char)) :=
  if chunkSize = 0 ∨ chunkSize ≤ overlap then Except.error CoreError.InvalidConfiguration
  else if isBlank text then Except.ok []
  else Except.ok (splitAux text.length text chunkSize (chunkSize - overlap))

/-- A record held by the vector index: embedding vector (float entries
modelled as exact integers — no claim depends on fractional values), chunk
text, provenance metadata, and the allocated id. -/
structure EmbeddedRecord where
  vector : List ℤ
  text : String
  metadata : List (String × String)
  recordId : Nat
deriving DecidableEq

/-- A record prior to insertion, before an id is allocated. -/
structure RawRecord where
  vector : List ℤ
  text : String
  metadata : List (String × String)
deriving DecidableEq

/-- Modelled from the spec: the vector store implementation (FAISS) is not
under `src/`.  Spec §3/§4.3: a fixed dimensionality, the stored records in
insertion order, and a counter from which fresh ids are allocated. -/
structure VectorIndex where
  dim : Nat
  records : List EmbeddedRecord
  nextId : Nat
deriving DecidableEq

/-- Spec §4.3: `create(dimensionality)` returns an empty index. -/
def VectorIndex.create (d : Nat) : VectorIndex := ⟨d, [], 0⟩

def VectorIndex.recordCount (idx : VectorIndex) : Nat := idx.records.length

/-- The payload of a record, ignoring the allocated id (used to speak about
"the same record" across id reallocation on merge). -/
def EmbeddedRecord.payload (r : EmbeddedRecord) :
    List ℤ × String × List (String × String) :=
  (r.vector, r.text, r.metadata)

/-- Modelled from the spec (§4.3): `add` fails with `DimensionMismatch` if
any vector's length differs from the index dimensionality; otherwise every
record is inserted with a freshly allocated unique id. -/
def VectorIndex.add (idx : VectorIndex) (recs : List RawRecord) :
    Except CoreError VectorIndex :=
  if recs.all (fun r => r.vector.length = idx.dim) then
    Except.ok
      { dim := idx.dim,
        records := idx.records ++
          recs.enum.map (fun p => ⟨p.2.vector, p.2.text, p.2.metadata, idx.nextId + p.1⟩),
        nextId := idx.nextId + recs.length }
  else Except.error CoreError.DimensionMismatch

/-- Modelled from the spec (§4.3): `merge` fails with `DimensionMismatch` on
differing dimensionalities; otherwise every record of `other` is copied into
`idx` with a newly allocated id — no deduplication. -/
def VectorIndex.merge (idx other : VectorIndex) : Except CoreError VectorIndex :=
  if other.dim = idx.dim then
    Except.ok
      { dim := idx.dim,
        records := idx.records ++
          other.records.enum.map (fun p => { p.2 with recordId := idx.nextId + p.1 }),
        nextId := idx.nextId + other.records.length }
  else Except.error CoreError.DimensionMismatch

/-- Squared Euclidean distance, the fixed similarity metric of the model
(distance semantics: lower score = more similar; spec §4.3 lets the
implementation pick one metric and orientation and keep it consistent). -/
def sqDist (u v : List ℤ) : ℤ := (List.zipWith (fun a b => (a - b) * (a - b)) u v).sum

/-- Ranking relation for a query: records at smaller distance come first;
insertion sort with this relation keeps insertion order on exact ties
(the earlier-inserted record ranks higher), as spec §4.3 requires. -/
def distLE (q : List ℤ) (a b : EmbeddedRecord) : Prop :=
  sqDist q a.vector ≤ sqDist q b.vector

instance (q : List ℤ) : DecidableRel (distLE q) := fun a b =>
  inferInstanceAs (Decidable (sqDist q a.vector ≤ sqDist q b.vector))

/-- A search hit: the stored record and its score.  The rank of a hit is its
position in the returned ordered sequence. -/
structure SearchHit where
  record : EmbeddedRecord
  score : ℤ
deriving DecidableEq

/-- Modelled from the spec (§4.3): `search` fails with `InvalidConfiguration`
for `k ≤ 0`; on an index with zero records it returns an empty sequence, not
an error; otherwise it returns the `k` stored records closest to the query,
ties broken by insertion order. -/
def VectorIndex.search (idx : VectorIndex) (q : List ℤ) (k : Nat) :
    Except CoreError (List SearchHit) :=
  if k = 0 then Except.error CoreError.InvalidConfiguration
  else Except.ok
    (((idx.records.insertionSort (distLE q)).take k).map
      (fun r => ⟨r, sqDist q r.vector⟩))

/-- Modelled from the spec (§4.3/§6): the persisted artifact — dimensionality
plus the full record table (id, vector, text, metadata) and the id counter. -/
structure PersistedIndex where
  pdim : Nat
  payload : List (Nat × List ℤ × String × List (String × String))
  pnextId : Nat
deriving DecidableEq

/-- Modelled from the spec (§4.3): `save` persists the full record set and
dimensionality. -/
def VectorIndex.save (idx : VectorIndex) : PersistedIndex :=
  ⟨idx.dim, idx.records.map (fun r => (r.recordId, r.vector, r.text, r.metadata)),
    idx.nextId⟩

/-- Modelled from the spec (§4.3): `load` fails with `CorruptIndex` if the
stored dimensionality does not match the number of floats found in any
persisted vector; otherwise it restores the index. -/
def loadIndex (p : PersistedIndex) : Except CoreError VectorIndex :=
  if p.payload.all (fun e => e.2.1.length = p.pdim) then
    Except.ok ⟨p.pdim, p.payload.map (fun e => ⟨e.2.1, e.2.2.1, e.2.2.2, e.1⟩), p.pnextId⟩
  else Except.error CoreError.CorruptIndex

/-- Well-formedness invariant of an index (spec §3): every stored vector has
the index's dimensionality. -/
def VectorIndex.WF (idx : VectorIndex) : Prop :=
  ∀ r ∈ idx.records, r.vector.length = idx.dim

/-- A langchain document: page content plus a metadata dictionary
(04_unified_processor.py).  The dictionary is modelled as an association
list. -/
structure Doc where
  page_content : String
  metadata : List (String × String)
deriving DecidableEq

def hasKey (m : List (String × String)) (key : String) : Bool :=
  m.any (fun p => p.1 = key)

/-- Python `dict.setdefault`: insert `(key, val)` only when `key` is absent. -/
def setdefault (m : List (String × String)) (key val : String) :
    List (String × String) :=
  if hasKey m key then m else m ++ [(key, val)]

/-- The three `setdefault` calls of `search_documents`
(04_unified_processor.py lines 134-136). -/
def withDefaults (m : List (String × String)) : List (String × String) :=
  setdefault (setdefault (setdefault m "title" "Unknown Document")
    "source" "unknown") "file_name" "Unknown File"

/-- One iteration of the result-formatting loop of `search_documents`
(lines 131-138): the defaults are set on `metadata`, a copy of
`doc.metadata`, but the ORIGINAL `doc` is appended to `formatted_results`,
so the copy is discarded and the pair is returned unchanged. -/
def format_result (d : Doc × ℤ) : Doc × ℤ :=
  let metadata := withDefaults d.1.metadata
  (d.1, d.2)

/-- The guard `not query or not query.strip()` of `search_documents`
(line 120): true for a missing (None) query, the empty string, and a
whitespace-only string. -/
def queryIsEmpty (query : Option String) : Bool :=
  match query with
  | none => true
  | some s => strip s = ""

/-- `UnifiedDataProcessor.search_documents` (04_unified_processor.py lines
115-146).  `vectorstore` is the processor's store field (`None` when no
store was loaded); `inner` is the outcome of the external call
`self.vectorstore.similarity_search_with_score(query, k=k)`, which may
raise (`Except.error`).  The returned pair is (the Python return value,
the messages printed). -/
def search_documents (vectorstore : Option VectorIndex) (query : Option String)
    (k : Nat) (inner : Except String (List (Doc × ℤ))) :
    List (Doc × ℤ) × List String :=
  match vectorstore, query with
  | none, _ => ([], ["No vector store available"])
  | some _, none => ([], ["Empty query provided"])
  | some _, some s =>
    if strip s = "" then ([], ["Empty query provided"])
    else
      match inner with
      | Except.ok results =>
        (results.map format_result,
          ["Searching for: " ++ s,
           "Found " ++ toString results.length ++ " results"])
      | Except.error e =>
        ([], ["Searching for: " ++ s, "Error searching documents: " ++ e])

/-- The external `splitter.split_documents(documents)` call
(04_unified_processor.py lines 86-87), instantiated with the spec-modelled
Chunker: each document's content is split with `chunk_size` and overlap 100
(the hard-coded `chunk_overlap=100`); metadata is carried through to each
chunk; a configuration error yields no chunks for that document. -/
def split_documents (docs : List Doc) (chunk_size overlap : Nat) : List Doc :=
  (docs.map (fun d =>
    match chunkText d.page_content.toList chunk_size overlap with
    | Except.ok cs => cs.map (fun c => Doc.mk (String.mk c) d.metadata)
    | Except.error _ => [])).flatten

/-- The external `FAISS.from_documents(chunks, self.embeddings)` call
(line 91/93), instantiated with the spec-modelled index: embed every chunk
and add the records to a fresh index of dimensionality `dim`. -/
def from_documents (embed : String → List ℤ) (dim : Nat) (docs : List Doc) :
    Except CoreError VectorIndex :=
  (VectorIndex.create dim).add
    (docs.map (fun c => RawRecord.mk (embed c.page_content) c.page_content c.metadata))

/-- The body of the `try` block of `_add_documents_to_vectorstore`
(lines 90-94): build a store from the chunks; when a store already exists,
merge the new store into it. -/
def add_documents_result (embed : String → List ℤ) (dim : Nat)
    (vectorstore : Option VectorIndex) (chunks : List Doc) :
    Except CoreError VectorIndex :=
  match vectorstore with
  | none => from_documents embed dim chunks
  | some vs => (from_documents embed dim chunks).bind (fun nv => vs.merge nv)

/-- `UnifiedDataProcessor._add_documents_to_vectorstore`
(04_unified_processor.py lines 84-100): split, embed and add inside a
`try`; any error is caught, printed, and swallowed, leaving the store
unchanged.  The returned pair is (the store field after the call, the
messages printed). -/
def add_documents_to_vectorstore (embed : String → List ℤ) (dim : Nat)
    (vectorstore : Option VectorIndex) (documents : List Doc)
    (chunk_size : Nat) : Option VectorIndex × List String :=
  let chunks := split_documents documents chunk_size 100
  match add_documents_result embed dim vectorstore chunks with
  | Except.ok vs2 =>
    (some vs2,
      ["Split into " ++ toString chunks.length ++ " chunks.",
       "Vector store saved", "Added documents to unified vector store."])
  | Except.error _ =>
    (vectorstore,
      ["Split into " ++ toString chunks.length ++ " chunks.",
       "Error adding documents to vector store"])

/-- Split a character list on a separator character (structurally
recursive counterpart of `String.splitOn` for single-character
separators). -/
def splitOnCharAux (sep : Char) : List Char → List Char → List (List Char)
  | [], acc => [acc.reverse]
  | c :: cs, acc =>
    if c = sep then acc.reverse :: splitOnCharAux sep cs []
    else splitOnCharAux sep cs (c :: acc)

def intercalateChar (sep : Char) : List (List Char) → List Char
  | [] => []
  | [x] => x
  | x :: xs => x ++ sep :: intercalateChar sep xs

/-- Python `os.path.basename` restricted to `/`-separated paths. -/
def basename (p : String) : String :=
  String.mk ((splitOnCharAux '/' p.toList []).getLastD p.toList)

/-- The root part of Python `os.path.splitext`: the name without its last
extension. -/
def splitext_root (p : String) : String :=
  let parts := splitOnCharAux '.' p.toList []
  if parts.length ≤ 1 then p else String.mk (intercalateChar '.' parts.dropLast)

/-- Assignment `doc.metadata[key] = val` on the metadata dictionary. -/
def setKey (m : List (String × String)) (key val : String) :
    List (String × String) :=
  if hasKey m key then m.map (fun p => if p.1 = key then (key, val) else p)
  else m ++ [(key, val)]

/-- The "ensure content is meaningful" substitution of `add_pdf_documents`
(lines 53-55): a page whose content is empty or shorter than 10 characters
after stripping is REPLACED by the placeholder text
`Content from {title} - Page {page}`. -/
def ensure_content (title : String) (page : Nat) (content : String) : String :=
  if content = "" ∨ (strip content).length < 10 then
    "Content from " ++ title ++ " - Page " ++ toString page
  else content

/-- The per-page metadata enrichment and content substitution of
`add_pdf_documents` (lines 45-55); `i` is the 0-based page position,
`total` the page count of the PDF. -/
def enrich_pdf_page (pdf_path : String) (total i : Nat) (d : Doc) : Doc :=
  let title := splitext_root (basename pdf_path)
  let md := setKey (setKey (setKey (setKey (setKey (setKey d.metadata
    "source" "pdf") "file_path" pdf_path) "file_name" (basename pdf_path))
    "title" title) "page" (toString (i + 1))) "total_pages" (toString total)
  Doc.mk (ensure_content title (i + 1) d.page_content) md

/-- `UnifiedDataProcessor.add_pdf_documents` (04_unified_processor.py lines
34-64) for a single PDF; `pages` is the outcome of the external
`PyPDFLoader(pdf_path).load()`.  Every page is enriched (and empty pages
replaced by the placeholder); when at least one document was loaded,
`_add_documents_to_vectorstore` is called.  The returned pair is (the store
field after the call, the messages printed). -/
def add_pdf_documents (embed : String → List ℤ) (dim : Nat)
    (vectorstore : Option VectorIndex) (pdf_path : String) (pages : List Doc)
    (chunk_size : Nat) : Option VectorIndex × List String :=
  let all_documents := pages.enum.map (fun p => enrich_pdf_page pdf_path pages.length p.1 p.2)
  let loadedMsg := "Loaded " ++ toString pages.length ++ " pages from " ++ basename pdf_path
  if all_documents.isEmpty then (vectorstore, [loadedMsg])
  else
    let r := add_documents_to_vectorstore embed dim vectorstore all_documents chunk_size
    (r.1, loadedMsg :: r.2)

theorem splitAux_ne_nil (fuel : Nat) (text : List Char) (cs step : Nat)
    (hf : text.length ≤ fuel) (ht : text ≠ []) :
    splitAux fuel text cs step ≠ [] := by
  cases fuel with
  | zero =>
    exact absurd (List.eq_nil_of_length_eq_zero (Nat.le_zero.mp hf)) ht
  | succ fuel =>
    have h0 : ¬ text.length = 0 := by
      simpa using ht
    by_cases hle : text.length ≤ cs <;> simp [splitAux, h0, hle]

theorem splitAux_get (fuel : Nat) : ∀ (text : List Char) (cs step : Nat),
    0 < step → step ≤ cs → text.length ≤ fuel →
    ∀ i (h : i < (splitAux fuel text cs step).length),
    (splitAux fuel text cs step).get ⟨i, h⟩ = (text.drop (i * step)).take cs := by
  induction fuel with
  | zero =>
    intro text cs step h1 h2 hf i h
    simp [splitAux] at h
  | succ fuel ih =>
    intro text cs step h1 h2 hf i h
    by_cases h0 : text.length = 0
    · simp [splitAux, h0] at h
    · by_cases hle : text.length ≤ cs
      · have hi : i = 0 := by
          simp [splitAux, h0, hle] at h
          omega
        subst hi
        simp [splitAux, h0, hle, List.take_of_length_le hle]
      · have hlt : cs < text.length := Nat.lt_of_not_le hle
        cases i with
        | zero =>
          simp [splitAux, h0, hle]
        | succ i =>
          have hf' : (text.drop step).length ≤ fuel := by
            simp only [List.length_drop]
            omega
          have h' : i < (splitAux fuel (text.drop step) cs step).length := by
            have := h
            simp [splitAux, h0, hle] at this
            omega
          have hrec := ih (text.drop step) cs step h1 h2 hf' i h'
          have hget : (splitAux (fuel + 1) text cs step).get ⟨i + 1, h⟩ =
              (splitAux fuel (text.drop step) cs step).get ⟨i, h'⟩ := by
            simp [splitAux, h0, hle]
          rw [hget, hrec, List.drop_drop]
          congr 1
          ring_nf

theorem splitAux_start (fuel : Nat) : ∀ (text : List Char) (cs step : Nat),
    0 < step → step ≤ cs → text.length ≤ fuel →
    ∀ i, i < (splitAux fuel text cs step).length → i * step < text.length := by
  induction fuel with
  | zero =>
    intro text cs step h1 h2 hf i h
    simp [splitAux] at h
  | succ fuel ih =>
    intro text cs step h1 h2 hf i h
    by_cases h0 : text.length = 0
    · simp [splitAux, h0] at h
    · by_cases hle : text.length ≤ cs
      · have hi : i = 0 := by
          simp [splitAux, h0, hle] at h
          omega
        subst hi
        omega
      · cases i with
        | zero =>
          simp
          omega
        | succ i =>
          have hlt : cs < text.length := Nat.lt_of_not_le hle
          have hf' : (text.drop step).length ≤ fuel := by
            simp only [List.length_drop]
            omega
          have h' : i < (splitAux fuel (text.drop step) cs step).length := by
            simp [splitAux, h0, hle] at h
            omega
          have hrec := ih (text.drop step) cs step h1 h2 hf' i h'
          simp only [List.length_drop] at hrec
          have hmul : (i + 1) * step = i * step + step := by ring_nf
          omega

theorem splitAux_covers (fuel : Nat) : ∀ (text : List Char) (cs step : Nat),
    0 < step → step ≤ cs → text.length ≤ fuel → text ≠ [] →
    text.length ≤ ((splitAux fuel text cs step).length - 1) * step + cs := by
  induction fuel with
  | zero =>
    intro text cs step h1 h2 hf ht
    exact absurd (List.eq_nil_of_length_eq_zero (Nat.le_zero.mp hf)) ht
  | succ fuel ih =>
    intro text cs step h1 h2 hf ht
    have h0 : ¬ text.length = 0 := by
      simpa using ht
    by_cases hle : text.length ≤ cs
    · simp [splitAux, h0, hle]
    · have hlt : cs < text.length := Nat.lt_of_not_le hle
      have hf' : (text.drop step).length ≤ fuel := by
        simp only [List.length_drop]
        omega
      have ht' : text.drop step ≠ [] := by
        intro hnil
        have := congrArg List.length hnil
        simp only [List.length_drop, List.length_nil] at this
        omega
      have hrec := ih (text.drop step) cs step h1 h2 hf' ht'
      simp only [List.length_drop] at hrec
      have hm : (splitAux fuel (text.drop step) cs step).length ≠ 0 := by
        intro hz
        exact splitAux_ne_nil fuel (text.drop step) cs step hf' ht'
          (List.eq_nil_of_length_eq_zero hz)
      set m := (splitAux fuel (text.drop step) cs step).length with hmdef
      have hlen : (splitAux (fuel + 1) text cs step).length = m + 1 := by
        simp [splitAux, h0, hle]
      rw [hlen]
      have hmul : m * step = (m - 1) * step + step := by
        have hm1 : m - 1 + 1 = m := by omega
        calc m * step = (m - 1 + 1) * step := by rw [hm1]
        _ = (m - 1) * step + step := by ring_nf
      simp only [Nat.add_sub_cancel]
      omega

/-- C1: for every text and every configuration with `chunkSize > 0` and
`0 ≤ overlap < chunkSize`, the chunker slides a window of length
`chunkSize` over the text advancing by `chunkSize - overlap` per step: the
`i`-th chunk is exactly `(text.drop (i * (chunkSize - overlap))).take
chunkSize`; every chunk starts inside the text and the last window reaches
the end of the text, so the final chunk may be shorter but is neither
padded nor dropped; and splitting `"ABCDEFGHIJ"` with `chunkSize = 4` and
`overlap = 1` yields exactly the three chunks `"ABCD"`, `"DEFG"`,
`"GHIJ"`. -/
theorem chunker_slides_window (text : List Char) (cs ov : Nat)
    (h1 : 0 < cs) (h2 : ov < cs) :
    ∃ chunks, chunkText text cs ov = Except.ok chunks ∧
      (∀ i (h : i < chunks.length),
        chunks.get ⟨i, h⟩ = (text.drop (i * (cs - ov))).take cs) ∧
      (isBlank text = false →
        (∀ i, i < chunks.length → i * (cs - ov) < text.length) ∧
        text.length ≤ (chunks.length - 1) * (cs - ov) + cs) ∧
      chunkText "ABCDEFGHIJ".toList 4 1 =
        Except.ok ["ABCD".toList, "DEFG".toList, "GHIJ".toList] := by
  have hg : ¬ (cs = 0 ∨ cs ≤ ov) := by omega
  by_cases hb : isBlank text = true
  · refine ⟨[], ?_, ?_, ?_, by decide⟩
    · simp [chunkText, hg, hb]
    · intro i h
      simp at h
    · intro hfalse
      rw [hb] at hfalse
      cases hfalse
  · have hbf : isBlank text = false := Bool.not_eq_true _ ▸ eq_false_of_ne_true hb
    refine ⟨splitAux text.length text cs (cs - ov), ?_, ?_, ?_, by decide⟩
    · simp [chunkText, hg, hbf]
    · intro i h
      exact splitAux_get text.length text cs (cs - ov) (by omega) (by omega) le_rfl i h
    · intro _
      have ht : text ≠ [] := by
        intro hnil
        subst hnil
        simp [isBlank] at hbf
      exact ⟨fun i h =>
          splitAux_start text.length text cs (cs - ov) (by omega) (by omega) le_rfl i h,
        splitAux_covers text.length text cs (cs - ov) (by omega) (by omega) le_rfl ht⟩

/-- Witness for C1: the theorem applied to the concrete scenario text
`"ABCDEFGHIJ"` with `chunkSize = 4`, `overlap = 1`. -/
theorem chunker_slides_window_witness :
    ∃ chunks, chunkText "ABCDEFGHIJ".toList 4 1 = Except.ok chunks ∧
      (∀ i (h : i < chunks.length),
        chunks.get ⟨i, h⟩ = ("ABCDEFGHIJ".toList.drop (i * (4 - 1))).take 4) ∧
      (isBlank "ABCDEFGHIJ".toList = false →
        (∀ i, i < chunks.length → i * (4 - 1) < "ABCDEFGHIJ".toList.length) ∧
        "ABCDEFGHIJ".toList.length ≤ (chunks.length - 1) * (4 - 1) + 4) ∧
      chunkText "ABCDEFGHIJ".toList 4 1 =
        Except.ok ["ABCD".toList, "DEFG".toList, "GHIJ".toList] :=
  chunker_slides_window "ABCDEFGHIJ".toList 4 1 (by decide) (by decide)

/-- C3: for every query and every `k > 0`, `search` succeeds and returns
exactly `min k recordCount` hits; on an index with zero records it returns
the empty sequence rather than an error. -/
theorem search_returns_min_k_count (idx : VectorIndex) (q : List ℤ) (k : Nat)
    (hk : 0 < k) :
    ∃ hits, idx.search q k = Except.ok hits ∧
      hits.length = min k idx.recordCount ∧
      (idx.recordCount = 0 → hits = []) := by
  have hk0 : ¬ k = 0 := by omega
  unfold VectorIndex.search
  rw [if_neg hk0]
  refine ⟨_, rfl, ?_, ?_⟩
  · simp [List.length_take, List.length_insertionSort, VectorIndex.recordCount]
  · intro h0
    have hnil : idx.records = [] :=
      List.eq_nil_of_length_eq_zero h0
    simp [hnil]

/-- Witness for C3: the theorem applied to an empty two-dimensional index
with `k = 5`. -/
theorem search_returns_min_k_count_witness :
    ∃ hits, (VectorIndex.create 2).search [1, 0] 5 = Except.ok hits ∧
      hits.length = min 5 (VectorIndex.create 2).recordCount ∧
      ((VectorIndex.create 2).recordCount = 0 → hits = []) :=
  search_returns_min_k_count (VectorIndex.create 2) [1, 0] 5 (by decide)

theorem payload_map_reassign (l : List EmbeddedRecord) (c : Nat) :
    (l.enum.map (fun p => { p.2 with recordId := c + p.1 })).map EmbeddedRecord.payload
      = l.map EmbeddedRecord.payload := by
  rw [List.map_map]
  have hfun : (EmbeddedRecord.payload ∘ fun p : Nat × EmbeddedRecord =>
      { p.2 with recordId := c + p.1 }) = EmbeddedRecord.payload ∘ Prod.snd := rfl
  rw [hfun, ← List.map_map, List.enum_map_snd]

/-- C2: for every pair of same-dimensionality indices, merging succeeds with
no deduplication — the record count of the merged index is exactly the sum
of the two counts — and a search over the merged index with `k` large
enough surfaces, for every record originally in either input, a hit with
that record's payload. -/
theorem merge_no_dedup (a b : VectorIndex) (hd : b.dim = a.dim) :
    ∃ m, a.merge b = Except.ok m ∧
      m.recordCount = a.recordCount + b.recordCount ∧
      ∀ q k, 0 < k → a.recordCount + b.recordCount ≤ k →
        ∃ hits, m.search q k = Except.ok hits ∧
          (∀ r ∈ a.records, ∃ hit ∈ hits, hit.record.payload = r.payload) ∧
          (∀ r ∈ b.records, ∃ hit ∈ hits, hit.record.payload = r.payload) := by
  unfold VectorIndex.merge
  rw [if_pos hd]
  have hcount : (a.records ++
      b.records.enum.map (fun p : Nat × EmbeddedRecord =>
        { p.2 with recordId := a.nextId + p.1 })).length
      = a.recordCount + b.recordCount := by
    simp [VectorIndex.recordCount]
  refine ⟨_, rfl, hcount, ?_⟩
  intro q k hk hkc
  unfold VectorIndex.search
  rw [if_neg (by omega)]
  set mrecs := a.records ++
    b.records.enum.map (fun p : Nat × EmbeddedRecord =>
      { p.2 with recordId := a.nextId + p.1 }) with hmrecs
  have htake : (mrecs.insertionSort (distLE q)).take k = mrecs.insertionSort (distLE q) := by
    apply List.take_of_length_le
    rw [List.length_insertionSort]
    omega
  rw [htake]
  refine ⟨_, rfl, ?_, ?_⟩
  · intro r hr
    have hm : r ∈ mrecs := List.mem_append_left _ hr
    have hs : r ∈ mrecs.insertionSort (distLE q) := (List.mem_insertionSort _).mpr hm
    exact ⟨⟨r, sqDist q r.vector⟩, List.mem_map_of_mem _ hs, rfl⟩
  · intro r hr
    have hp : r.payload ∈ (b.records.enum.map
        (fun p : Nat × EmbeddedRecord =>
          { p.2 with recordId := a.nextId + p.1 })).map EmbeddedRecord.payload := by
      rw [payload_map_reassign]
      exact List.mem_map_of_mem _ hr
    obtain ⟨r', hr'mem, hpay⟩ := List.mem_map.mp hp
    have hm : r' ∈ mrecs := List.mem_append_right _ hr'mem
    have hs : r' ∈ mrecs.insertionSort (distLE q) := (List.mem_insertionSort _).mpr hm
    exact ⟨⟨r', sqDist q r'.vector⟩, List.mem_map_of_mem _ hs, hpay⟩

/-- Witness for C2: the theorem applied to two concrete two-dimensional
one-record indices. -/
theorem merge_no_dedup_witness :
    ∃ m, VectorIndex.merge ⟨2, [⟨[1, 0], "va", [], 0⟩], 1⟩ ⟨2, [⟨[0, 1], "vb", [], 0⟩], 1⟩
        = Except.ok m ∧
      m.recordCount = VectorIndex.recordCount ⟨2, [⟨[1, 0], "va", [], 0⟩], 1⟩ +
        VectorIndex.recordCount ⟨2, [⟨[0, 1], "vb", [], 0⟩], 1⟩ ∧
      ∀ q k, 0 < k →
        VectorIndex.recordCount ⟨2, [⟨[1, 0], "va", [], 0⟩], 1⟩ +
          VectorIndex.recordCount ⟨2, [⟨[0, 1], "vb", [], 0⟩], 1⟩ ≤ k →
        ∃ hits, m.search q k = Except.ok hits ∧
          (∀ r ∈ (VectorIndex.mk 2 [⟨[1, 0], "va", [], 0⟩] 1).records,
            ∃ hit ∈ hits, hit.record.payload = r.payload) ∧
          (∀ r ∈ (VectorIndex.mk 2 [⟨[0, 1], "vb", [], 0⟩] 1).records,
            ∃ hit ∈ hits, hit.record.payload = r.payload) :=
  merge_no_dedup ⟨2, [⟨[1, 0], "va", [], 0⟩], 1⟩ ⟨2, [⟨[0, 1], "vb", [], 0⟩], 1⟩ (by decide)

/-- C7: for every batch containing at least one vector whose length differs
from the index dimensionality, `add` fails with `DimensionMismatch` and
produces no index — the caller's index value is untouched (atomic
rejection, no partial insertion). -/
theorem add_rejects_dimension_mismatch (idx : VectorIndex) (recs : List RawRecord)
    (h : ∃ r ∈ recs, r.vector.length ≠ idx.dim) :
    idx.add recs = Except.error CoreError.DimensionMismatch ∧
      ∀ idx2, idx.add recs ≠ Except.ok idx2 := by
  have herr : idx.add recs = Except.error CoreError.DimensionMismatch := by
    unfold VectorIndex.add
    rw [if_neg]
    intro hall
    rw [List.all_eq_true] at hall
    obtain ⟨r, hr, hne⟩ := h
    exact hne (by simpa using hall r hr)
  refine ⟨herr, fun idx2 hok => ?_⟩
  rw [herr] at hok
  exact Except.noConfusion hok

/-- Witness for C7: the theorem applied to a two-dimensional index and a
batch holding one one-dimensional vector. -/
theorem add_rejects_dimension_mismatch_witness :
    VectorIndex.add (VectorIndex.create 2) [⟨[7], "bad", []⟩]
        = Except.error CoreError.DimensionMismatch ∧
      ∀ idx2, VectorIndex.add (VectorIndex.create 2) [⟨[7], "bad", []⟩] ≠ Except.ok idx2 :=
  add_rejects_dimension_mismatch (VectorIndex.create 2) [⟨[7], "bad", []⟩]
    ⟨⟨[7], "bad", []⟩, by decide⟩

/-- C6: for every well-formed index, saving and then loading from the saved
artifact succeeds and reproduces an index whose search results for every
query and every `k` are identical — same records, same scores, same
order — to those of the pre-save index. -/
theorem save_load_roundtrip (idx : VectorIndex) (hwf : idx.WF) :
    ∃ idx2, loadIndex idx.save = Except.ok idx2 ∧
      ∀ q k, idx2.search q k = idx.search q k := by
  have hcheck : idx.save.payload.all (fun e => e.2.1.length = idx.save.pdim) = true := by
    rw [List.all_eq_true]
    intro e he
    unfold VectorIndex.save at he
    simp only at he
    obtain ⟨r, hr, rfl⟩ := List.mem_map.mp he
    simpa using hwf r hr
  refine ⟨idx, ?_, fun q k => rfl⟩
  unfold loadIndex
  rw [if_pos (by simpa using hcheck)]
  congr 1
  cases idx with
  | mk d recs nid =>
    simp only [VectorIndex.save, List.map_map]
    have hfun : ((fun e : Nat × List ℤ × String × List (String × String) =>
        (⟨e.2.1, e.2.2.1, e.2.2.2, e.1⟩ : EmbeddedRecord)) ∘
        (fun r : EmbeddedRecord => (r.recordId, r.vector, r.text, r.metadata))) = id := rfl
    rw [hfun, List.map_id]

/-- Witness for C6: the theorem applied to a concrete well-formed
two-dimensional index holding one record. -/
theorem save_load_roundtrip_witness :
    ∃ idx2, loadIndex (VectorIndex.save ⟨2, [⟨[1, 0], "va", [("k", "v")], 0⟩], 1⟩)
        = Except.ok idx2 ∧
      ∀ q k, idx2.search q k = VectorIndex.search ⟨2, [⟨[1, 0], "va", [("k", "v")], 0⟩], 1⟩ q k :=
  save_load_roundtrip ⟨2, [⟨[1, 0], "va", [("k", "v")], 0⟩], 1⟩
    (by intro r hr; rw [List.mem_singleton] at hr; subst hr; rfl)

/-- Counterexample to C4 as stated: a whitespace-only query does NOT fail
with an `InvalidQuery` error — `search_documents` returns the empty list,
exactly the caller-visible value produced by a valid query with no
results, so the two outcomes are not distinct. -/
theorem empty_query_not_distinct_cex :
    (search_documents (some (VectorIndex.create 2)) (some " ") 5 (Except.ok [])).1
      = (search_documents (some (VectorIndex.create 2)) (some "a real query") 5
          (Except.ok [])).1 ∧
    (search_documents (some (VectorIndex.create 2)) (some " ") 5 (Except.ok [])).1 = [] := by
  decide

/-- C4 (amended): for every query that is missing, empty or whitespace-only,
`search_documents` does not fail: it returns the empty list (after printing
"Empty query provided") — the same caller-visible value as a valid query
against an empty index, so no `InvalidQuery` error is signaled and the two
cases are indistinguishable to the caller. -/
theorem empty_query_returns_empty_list (vs : VectorIndex) (query : Option String)
    (k : Nat) (inner : Except String (List (Doc × ℤ)))
    (h : queryIsEmpty query = true) :
    search_documents (some vs) query k inner = ([], ["Empty query provided"]) ∧
    (search_documents (some vs) query k inner).1
      = (search_documents (some vs) (some "valid") k (Except.ok [])).1 := by
  have hmain : search_documents (some vs) query k inner = ([], ["Empty query provided"]) := by
    cases query with
    | none => rfl
    | some s =>
      have hs : strip s = "" := by simpa [queryIsEmpty] using h
      simp [search_documents, hs]
  refine ⟨hmain, ?_⟩
  rw [hmain]
  rfl

/-- Witness for C4 (amended): the theorem applied to a whitespace-only
query over an empty two-dimensional index. -/
theorem empty_query_returns_empty_list_witness :
    search_documents (some (VectorIndex.create 2)) (some "  ") 5 (Except.ok [])
        = ([], ["Empty query provided"]) ∧
      (search_documents (some (VectorIndex.create 2)) (some "  ") 5 (Except.ok [])).1
        = (search_documents (some (VectorIndex.create 2)) (some "valid") 5
            (Except.ok [])).1 :=
  empty_query_returns_empty_list (VectorIndex.create 2) (some "  ") 5 (Except.ok [])
    (by decide)

/-- Counterexample to C5 as stated: ingesting a PDF whose single page has
empty raw text does NOT produce zero chunks and does NOT leave the index
untouched — the ingestion path replaces the empty page by the placeholder
`Content from doc - Page 1` and the index gains one placeholder chunk. -/
theorem empty_page_adds_placeholder_cex :
    ((add_pdf_documents (fun _ => [0, 0]) 2 none "doc.pdf" [Doc.mk "" []] 500).1).map
        VectorIndex.recordCount = some 1 ∧
      (enrich_pdf_page "doc.pdf" 1 0 (Doc.mk "" [])).page_content
        = "Content from doc - Page 1" := by
  decide

/-- C5 (amended): the chunker itself produces zero chunks for empty or
whitespace-only text, and a PDF ingestion from which no documents were
loaded leaves the store unchanged without an error; but a loaded page whose
content is empty (or shorter than 10 characters after stripping) is
replaced by the placeholder `Content from {title} - Page {page}` before
chunking, so ingesting such a page adds a placeholder chunk rather than
leaving the index unchanged. -/
theorem ingest_empty_text_behavior (text : List Char) (cs ov : Nat)
    (h1 : 0 < cs) (h2 : ov < cs) (hb : isBlank text = true) :
    chunkText text cs ov = Except.ok [] ∧
    (∀ embed dim vs path csz,
      add_pdf_documents embed dim vs path [] csz
        = (vs, ["Loaded 0 pages from " ++ basename path])) ∧
    (∀ path total i d, d.page_content = "" →
      (enrich_pdf_page path total i d).page_content
        = "Content from " ++ splitext_root (basename path) ++ " - Page "
          ++ toString (i + 1)) := by
  refine ⟨?_, ?_, ?_⟩
  · unfold chunkText
    rw [if_neg (by omega)]
    simp [hb]
  · intro embed dim vs path csz
    rfl
  · intro path total i d hd
    simp [enrich_pdf_page, ensure_content, hd]

/-- Witness for C5 (amended): the theorem applied to a whitespace-only text
with `chunkSize = 4`, `overlap = 1`. -/
theorem ingest_empty_text_behavior_witness :
    chunkText " ".toList 4 1 = Except.ok [] ∧
    (∀ embed dim vs path csz,
      add_pdf_documents embed dim vs path [] csz
        = (vs, ["Loaded 0 pages from " ++ basename path])) ∧
    (∀ path total i d, d.page_content = "" →
      (enrich_pdf_page path total i d).page_content
        = "Content from " ++ splitext_root (basename path) ++ " - Page "
          ++ toString (i + 1)) :=
  ingest_empty_text_behavior " ".toList 4 1 (by decide) (by decide) (by decide)

/-- Counterexample to C8 as stated: at a concrete internal search failure
the error is NOT returned or signaled to the immediate caller — the caller
receives the empty list, the very value of a genuine no-results search —
and logging side effects occur, both on this error path and on a
successful add. -/
theorem errors_swallowed_cex :
    (search_documents (some (VectorIndex.create 2)) (some "hello") 5
        (Except.error "boom")).1
      = (search_documents (some (VectorIndex.create 2)) (some "hello") 5
          (Except.ok [])).1 ∧
    (search_documents (some (VectorIndex.create 2)) (some "hello") 5
        (Except.error "boom")).2 ≠ [] ∧
    (add_documents_to_vectorstore (fun _ => [0, 0]) 2 (some (VectorIndex.create 2))
        [] 500).2 ≠ [] := by
  decide

/-- C8 (amended): errors arising inside `search_documents` and
`_add_documents_to_vectorstore` are caught within the operation, logged
(printed), and swallowed rather than returned: the search caller receives
the empty list and the add caller finds the store field unchanged, with log
output produced in both cases; no retry occurs — each external call is
consulted exactly once. -/
theorem errors_logged_and_swallowed (vs : VectorIndex) (s e : String) (k : Nat)
    (embed : String → List ℤ) (dim : Nat) (vso : Option VectorIndex)
    (docs : List Doc) (csz : Nat) (err : CoreError)
    (hs : strip s ≠ "")
    (hadd : add_documents_result embed dim vso (split_documents docs csz 100)
      = Except.error err) :
    search_documents (some vs) (some s) k (Except.error e)
        = ([], ["Searching for: " ++ s, "Error searching documents: " ++ e]) ∧
      add_documents_to_vectorstore embed dim vso docs csz
        = (vso, ["Split into " ++ toString (split_documents docs csz 100).length
            ++ " chunks.", "Error adding documents to vector store"]) := by
  constructor
  · simp [search_documents, hs]
  · simp [add_documents_to_vectorstore, hadd]

/-- Witness for C8 (amended): the theorem applied to a concrete failing
search and a concrete dimension-mismatched add (a one-dimensional embedder
against a two-dimensional store). -/
theorem errors_logged_and_swallowed_witness :
    search_documents (some (VectorIndex.create 2)) (some "hello") 5 (Except.error "boom")
        = ([], ["Searching for: " ++ "hello", "Error searching documents: " ++ "boom"]) ∧
      add_documents_to_vectorstore (fun _ => [7]) 2 (some (VectorIndex.create 2))
          [Doc.mk "measurable content here" []] 500
        = (some (VectorIndex.create 2),
            ["Split into " ++ toString (split_documents
                [Doc.mk "measurable content here" []] 500 100).length ++ " chunks.",
             "Error adding documents to vector store"]) :=
  errors_logged_and_swallowed (VectorIndex.create 2) "hello" "boom" 5
    (fun _ => [7]) 2 (some (VectorIndex.create 2))
    [Doc.mk "measurable content here" []] 500 CoreError.DimensionMismatch
    (by decide) (by decide)

/-- C9: `search_documents` is total over its public interface — it is a
function into `List (Doc × ℤ) × List String`, so it returns a list and
never propagates an exception; a missing index, a missing (None-like)
query, an empty or whitespace-only query, and an internal search failure
all yield the empty list, exactly the value of a genuine no-results
search, so the caller cannot distinguish these failure modes. -/
theorem search_documents_total (query : Option String) (k : Nat)
    (inner : Except String (List (Doc × ℤ))) (vs : VectorIndex) (s e : String)
    (hs : strip s = "") :
    (search_documents none query k inner).1 = [] ∧
    (search_documents (some vs) none k inner).1 = [] ∧
    (search_documents (some vs) (some s) k inner).1 = [] ∧
    (∀ q, (search_documents (some vs) q k (Except.error e)).1 = []) ∧
    (search_documents (some vs) (some "a real query") k (Except.ok [])).1 = [] := by
  refine ⟨rfl, rfl, ?_, ?_, rfl⟩
  · simp [search_documents, hs]
  · intro q
    cases q with
    | none => rfl
    | some s' =>
      by_cases hs' : strip s' = "" <;> simp [search_documents, hs']

/-- Witness for C9: the theorem applied to concrete inputs with the
whitespace-only query `" "`. -/
theorem search_documents_total_witness :
    (search_documents none (some "x") 5 (Except.ok [])).1 = [] ∧
    (search_documents (some (VectorIndex.create 2)) none 5 (Except.ok [])).1 = [] ∧
    (search_documents (some (VectorIndex.create 2)) (some " ") 5 (Except.ok [])).1 = [] ∧
    (∀ q, (search_documents (some (VectorIndex.create 2)) q 5
      (Except.error "down")).1 = []) ∧
    (search_documents (some (VectorIndex.create 2)) (some "a real query") 5
      (Except.ok [])).1 = [] :=
  search_documents_total (some "x") 5 (Except.ok []) (VectorIndex.create 2) " " "down"
    (by decide)

theorem hasKey_setdefault_self (m : List (String × String)) (key val : String) :
    hasKey (setdefault m key val) key = true := by
  unfold setdefault
  by_cases h : hasKey m key = true
  · rw [if_pos h]
    exact h
  · rw [if_neg h]
    simp [hasKey, List.any_append]

theorem hasKey_setdefault_of (m : List (String × String)) (key key2 val : String)
    (h : hasKey m key = true) :
    hasKey (setdefault m key2 val) key = true := by
  unfold setdefault
  by_cases h2 : hasKey m key2 = true
  · rw [if_pos h2]
    exact h
  · rw [if_neg h2]
    simp only [hasKey, List.any_append] at h ⊢
    rw [h]
    rfl

/-- C10: every hit returned by `search_documents` carries the stored
record's metadata map unchanged — the returned list is exactly the inner
result list, because the defaults for `title`, `source` and `file_name`
are set only on a discarded copy (`withDefaults`) of the metadata — so a
returned hit is not guaranteed to contain those keys, even though the
discarded copy always contains all three. -/
theorem hits_metadata_unchanged (vs : VectorIndex) (s : String) (k : Nat)
    (results : List (Doc × ℤ)) (hs : strip s ≠ "") :
    (search_documents (some vs) (some s) k (Except.ok results)).1 = results ∧
    (∀ d ∈ results, hasKey d.1.metadata "title" = false →
      d ∈ (search_documents (some vs) (some s) k (Except.ok results)).1 ∧
        hasKey d.1.metadata "title" = false) ∧
    (∀ m, hasKey (withDefaults m) "title" = true ∧
      hasKey (withDefaults m) "source" = true ∧
      hasKey (withDefaults m) "file_name" = true) := by
  have hid : (search_documents (some vs) (some s) k (Except.ok results)).1 = results := by
    simp only [search_documents]
    rw [if_neg hs]
    have hfmt : @format_result = id := rfl
    rw [hfmt, List.map_id]
  refine ⟨hid, ?_, ?_⟩
  · intro d hd hkey
    rw [hid]
    exact ⟨hd, hkey⟩
  · intro m
    refine ⟨?_, ?_, ?_⟩
    · exact hasKey_setdefault_of _ _ _ _
        (hasKey_setdefault_of _ _ _ _ (hasKey_setdefault_self _ _ _))
    · exact hasKey_setdefault_of _ _ _ _ (hasKey_setdefault_self _ _ _)
    · exact hasKey_setdefault_self _ _ _

/-- Witness for C10: the theorem applied to a concrete result list whose
single document lacks the `title` key. -/
theorem hits_metadata_unchanged_witness :
    (search_documents (some (VectorIndex.create 2)) (some "hello") 1
        (Except.ok [(Doc.mk "txt" [], 0)])).1 = [(Doc.mk "txt" [], 0)] ∧
    (∀ d ∈ [((Doc.mk "txt" [] : Doc), (0 : ℤ))], hasKey d.1.metadata "title" = false →
      d ∈ (search_documents (some (VectorIndex.create 2)) (some "hello") 1
          (Except.ok [(Doc.mk "txt" [], 0)])).1 ∧
        hasKey d.1.metadata "title" = false) ∧
    (∀ m, hasKey (withDefaults m) "title" = true ∧
      hasKey (withDefaults m) "source" = true ∧
      hasKey (withDefaults m) "file_name" = true) :=
  hits_metadata_unchanged (VectorIndex.create 2) "hello" 1 [(Doc.mk "txt" [], 0)]
    (by decide)
